import Mathlib

/-!
# Verification of `use-state-singleton`

A shallow embedding of the TypeScript state container
(`StateSingleton` in `src/index.ts`, identical in the two historical
copies of that file) and of its view-binding hooks, together with proofs
of the specification's claims about them.

Modelling conventions:

* Reference identity of immer snapshots is modelled by tagging every
  state value with a numeric identity (`Snap`).  `produce` models immer's
  contract as relied upon by the source: it returns the very same
  reference when the updater makes no observable edit to the draft, and a
  fresh reference (never equal to the previous one) otherwise.  An
  updater `cb : (draft) => void` is therefore embedded as a function
  `α → Option α`: `none` means the callback made no observable edit,
  `some v` means its edits produce the value `v`.
* Listener references (JS function identities) are modelled by `Nat`
  ids.  The JS `Set` of listeners is an insertion-ordered
  duplicate-free list, which is exactly how JS `Set` iterates.
* A call to `update` is embedded as a pure function returning the new
  container together with the notification trace: the list of
  `(listener, snapshot)` invocations the `for ... of` loop performs, in
  order.  The trace being produced by the call itself models the fact
  that all notifications happen synchronously inside `update`.
-/

namespace UseStateSingleton

/-- A state snapshot: a value of the state type tagged with a numeric
reference identity.  Two snapshots are "the same reference" exactly when
their `id`s agree. -/
structure Snap (α : Type) where
  id : Nat
  val : α
deriving DecidableEq, Repr

/-- Model of immer's `produce(prev, cb)`: when the updater makes no
observable edit (`cb prev.val = none`) the same reference is returned;
otherwise a fresh reference (id strictly larger than the previous one)
carrying the edited value. -/
def produce {α : Type} (prev : Snap α) (cb : α → Option α) : Snap α :=
  match cb prev.val with
  | none => prev
  | some v => ⟨prev.id + 1, v⟩

/-- The state container of `src/index.ts` (`class StateSingleton`).
`state` is the current snapshot; `listeners` is the `Set` of registered
listener references in insertion order. -/
structure StateSingleton (α : Type) where
  state : Snap α
  listeners : List Nat
deriving Repr

namespace StateSingleton

variable {α : Type}

/-- `getState()` — returns the current snapshot. -/
def getState (s : StateSingleton α) : Snap α :=
  s.state

/-- `listen(listener)` — registers a listener.  The `invariant(...)`
call throws (here: `Except.error`) when the same listener reference is
already in the set; otherwise the listener is added at the end of the
insertion order. -/
def listen (s : StateSingleton α) (l : Nat) :
    Except String (StateSingleton α) :=
  if l ∈ s.listeners then
    .error "This listener was already added to this StateSingleton."
  else
    .ok { s with listeners := s.listeners ++ [l] }

/-- The unsubscribe closure returned by `listen`:
`() => { this.listeners.delete(listener); }`.  JS `Set.delete` removes
the element when present and is a no-op otherwise. -/
def unsubscribe (s : StateSingleton α) (l : Nat) : StateSingleton α :=
  { s with listeners := s.listeners.erase l }

/-- `update(cb)` — runs the updater through `produce`, installs the
result as the current state, and, only when the new state is
reference-distinct from the previous one (`this.state !== prevState`),
invokes every registered listener with the new snapshot, in insertion
order.  The returned list is the notification trace: the `(listener,
snapshot)` calls performed, in order, all synchronously inside this
call. -/
def update (s : StateSingleton α) (cb : α → Option α) :
    StateSingleton α × List (Nat × Snap α) :=
  let prevState := s.state
  let newState := produce prevState cb
  let s' : StateSingleton α := { s with state := newState }
  if newState.id ≠ prevState.id then
    (s', s'.listeners.map fun l => (l, newState))
  else
    (s', [])

/-- A finite sequence of `update` calls, accumulating the notification
traces in order. -/
def updateSeq (s : StateSingleton α) (cbs : List (α → Option α)) :
    StateSingleton α × List (Nat × Snap α) :=
  match cbs with
  | [] => (s, [])
  | cb :: rest =>
    let r := update s cb
    let r2 := updateSeq r.1 rest
    (r2.1, r.2 ++ r2.2)

/-- The notification loop of `update`, refined with listener faults: a
listener either returns normally or throws.  `throws l = true` means
invoking listener `l` raises an exception.  The loop returns the
invocations actually performed (a throwing listener is still invoked)
and whether an exception escaped the loop; a throw aborts the loop at
once, exactly as a JS `for ... of` loop does. -/
def notifyLoop (throws : Nat → Bool) (st : Snap α) :
    List Nat → List (Nat × Snap α) × Bool
  | [] => ([], false)
  | l :: ls =>
    if throws l then
      ([(l, st)], true)
    else
      let r := notifyLoop throws st ls
      ((l, st) :: r.1, r.2)

/-- `update(cb)` refined with listener faults, mirroring the same source
lines as `update`: the new state is installed before the loop starts, so
it remains installed even when a listener throws; the Boolean records
whether an exception propagated out of `update` to its caller. -/
def updateE (s : StateSingleton α) (cb : α → Option α)
    (throws : Nat → Bool) :
    StateSingleton α × List (Nat × Snap α) × Bool :=
  let prevState := s.state
  let newState := produce prevState cb
  let s' : StateSingleton α := { s with state := newState }
  if newState.id ≠ prevState.id then
    let r := notifyLoop throws newState s'.listeners
    (s', r.1, r.2)
  else
    (s', [], false)

/-- Well-formedness: a JS `Set` never holds duplicates, so the listener
list is duplicate-free.  Every operation of the container preserves
this. -/
def WF (s : StateSingleton α) : Prop :=
  s.listeners.Nodup

instance (s : StateSingleton α) : Decidable (WF s) := by
  unfold WF; infer_instance

end StateSingleton

/-- The legacy container of the earliest source version (`class Store`):
its `update` has no reference-distinctness check and notifies every
registered listener after every call, even when `produce` returned the
very same snapshot. -/
structure Store (α : Type) where
  state : Snap α
  listeners : List Nat
deriving Repr

namespace Store

variable {α : Type}

/-- Legacy `getState()`. -/
def getState (s : Store α) : Snap α :=
  s.state

/-- Legacy `listen(listener)` — identical to `StateSingleton.listen`. -/
def listen (s : Store α) (l : Nat) : Except String (Store α) :=
  if l ∈ s.listeners then
    .error "This listener was already added to this Store."
  else
    .ok { s with listeners := s.listeners ++ [l] }

/-- Legacy `update(cb)` — `this.state = produce(this.state, cb)` followed
unconditionally by the notification loop: no comparison with the
previous state. -/
def update (s : Store α) (cb : α → Option α) :
    Store α × List (Nat × Snap α) :=
  let newState := produce s.state cb
  let s' : Store α := { s with state := newState }
  (s', s'.listeners.map fun l => (l, newState))

end Store

/-!
## The view-binding hook, refs-based version

`useStateSingleton(stateSingleton, selector, equalityFn)` from the
source version that keeps `selector` and `equalityFn` in mutable refs
(`selectorRef.current = selector; equalityFnRef.current = equalityFn` on
every render) and whose `useEffect` has dependency list
`[stateSingleton]` only.  The hook of `useStore` differs only in reading
`value`/`setValue` through refs as well, which is behaviourally
identical in this sequential model.

A mounted hook instance is a `Session`; the component tree plus the
containers it can bind to form a `World`, where containers are addressed
by a numeric key (container identity) and fresh listener closures are
drawn from a counter, so every `listen` call registers a reference never
seen before.
-/

namespace RefsHook

open StateSingleton

/-- The retained state of one mounted hook instance: the rendered
selection (`useState` slot `value`), the current contents of
`selectorRef` and `equalityFnRef`, the identity of the container the
active effect subscribed to, and the identity of the listener closure it
registered there. -/
structure Session (α β : Type) where
  value : β
  selectorRef : α → β
  equalityRef : β → β → Bool
  subKey : Nat
  listenerId : Nat

/-- The world a hook instance lives in: containers addressed by
identity, at most one mounted session, and a supply of fresh listener
identities. -/
structure World (α β : Type) where
  containers : Nat → StateSingleton α
  session : Option (Session α β)
  nextListener : Nat

variable {α β : Type}

/-- Mounting the component: `useState(() => selector(getState()))`
computes the initial selection, then the effect runs and subscribes a
fresh listener closure to the container.  (`listen` cannot throw here
because the listener identity is fresh; the `error` branch is dead under
`World.Fresh` below.) -/
def mount (w : World α β) (k : Nat) (f : α → β) (e : β → β → Bool) :
    World α β :=
  let c := w.containers k
  let lid := w.nextListener
  match c.listen lid with
  | .ok c' =>
    { containers := fun j => if j = k then c' else w.containers j,
      session := some ⟨f c.state.val, f, e, k, lid⟩,
      nextListener := lid + 1 }
  | .error _ => w

/-- A re-render of the mounted component with container `k`, selector
`f` and equality function `e`: the refs are overwritten unconditionally;
the effect (dependency list `[stateSingleton]`) re-runs only when the
container identity changed, in which case the cleanup unsubscribes the
old listener from the old container and the effect subscribes a fresh
listener to the new one.  The rendered `value` is not recomputed by a
re-render. -/
def rerender (w : World α β) (k : Nat) (f : α → β) (e : β → β → Bool) :
    World α β :=
  match w.session with
  | none => w
  | some s =>
    let s1 : Session α β := { s with selectorRef := f, equalityRef := e }
    if s.subKey = k then
      { w with session := some s1 }
    else
      let cOld := (w.containers s.subKey).unsubscribe s.listenerId
      let w1 : World α β :=
        { w with
          containers := fun j => if j = s.subKey then cOld else w.containers j,
          session := some s1 }
      let lid := w1.nextListener
      let cNew := w1.containers k
      match cNew.listen lid with
      | .ok cNew' =>
        { containers := fun j => if j = k then cNew' else w1.containers j,
          session := some { s1 with subKey := k, listenerId := lid },
          nextListener := lid + 1 }
      | .error _ => w1

/-- Unmounting the component: the effect cleanup unsubscribes the
session's listener. -/
def unmount (w : World α β) : World α β :=
  match w.session with
  | none => w
  | some s =>
    { w with
      containers := fun j =>
        if j = s.subKey then (w.containers s.subKey).unsubscribe s.listenerId
        else w.containers j,
      session := none }

/-- A mutation on container `k`: the container's `update` runs; if the
notification trace contains the session's listener closure, that closure
fires: it selects from the notified snapshot with the ref'd selector and
compares with the ref'd equality function against the rendered value;
only when they differ does the state updater return the new selection
(a re-render is requested).  The Boolean reports whether a re-render was
requested. -/
def mutate (w : World α β) (k : Nat) (cb : α → Option α) :
    World α β × Bool :=
  let r := (w.containers k).update cb
  let w1 : World α β :=
    { w with containers := fun j => if j = k then r.1 else w.containers j }
  match w1.session with
  | none => (w1, false)
  | some s =>
    match r.2.find? (fun p => p.1 == s.listenerId) with
    | some p =>
      let nextValue := s.selectorRef p.2.val
      if s.equalityRef nextValue s.value then
        (w1, false)
      else
        ({ w1 with session := some { s with value := nextValue } }, true)
    | none => (w1, false)

/-- A finite sequence of mutations, all on container `k`. -/
def mutateSeq (w : World α β) (k : Nat) (cbs : List (α → Option α)) :
    World α β :=
  match cbs with
  | [] => w
  | cb :: rest => mutateSeq (mutate w k cb).1 k rest

/-- Freshness of the listener supply: every listener registered anywhere
is below the counter, and so is the session's own listener.  `mount` and
`rerender` preserve this, which keeps their `error` branches dead. -/
def World.Fresh (w : World α β) : Prop :=
  (∀ k, ∀ l ∈ (w.containers k).listeners, l < w.nextListener) ∧
    (∀ s, w.session = some s → s.listenerId < w.nextListener)

end RefsHook

/-!
## The view-binding hook, dependency-list version

`useStateSingleton(stateSingleton, selector)` from `src/index.ts`: no
equality function, and the `useEffect` dependency list is
`[stateSingleton, selector]`, so the effect also re-runs — unsubscribing
and subscribing afresh — whenever the selector identity changes.  The
effect body re-selects from the current state
(`setCurrentValue(selector(stateSingleton.getState()))`) before
subscribing.  Selector identity is modelled by a numeric key carried
alongside the function. -/

namespace DepsHook

open StateSingleton

/-- The retained state of one mounted `src/index.ts` hook instance:
the rendered selection, the selector (function and identity key) the
active effect closed over, the container identity it subscribed to, and
the listener closure identity it registered. -/
structure Session (α β : Type) where
  value : β
  selKey : Nat
  selector : α → β
  subKey : Nat
  listenerId : Nat

/-- World for the `src/index.ts` hook. -/
structure World (α β : Type) where
  containers : Nat → StateSingleton α
  session : Option (Session α β)
  nextListener : Nat

variable {α β : Type}

/-- Mounting: the initial selection is computed, then the effect runs:
it re-selects from the current state and subscribes a fresh listener. -/
def mount (w : World α β) (k selKey : Nat) (f : α → β) : World α β :=
  let c := w.containers k
  let lid := w.nextListener
  match c.listen lid with
  | .ok c' =>
    { containers := fun j => if j = k then c' else w.containers j,
      session := some ⟨f c.state.val, selKey, f, k, lid⟩,
      nextListener := lid + 1 }
  | .error _ => w

/-- A re-render with container `k` and selector `(selKey, f)`: the
effect re-runs unless both the container identity and the selector
identity are unchanged (`[stateSingleton, selector]` dependency list).
When it re-runs, the cleanup unsubscribes the old listener, and the new
effect re-selects from the current state and subscribes a fresh
listener. -/
def rerender (w : World α β) (k selKey : Nat) (f : α → β) : World α β :=
  match w.session with
  | none => w
  | some s =>
    if s.subKey = k ∧ s.selKey = selKey then
      w
    else
      let cOld := (w.containers s.subKey).unsubscribe s.listenerId
      let w1 : World α β :=
        { w with
          containers := fun j => if j = s.subKey then cOld else w.containers j }
      let lid := w1.nextListener
      let cNew := w1.containers k
      match cNew.listen lid with
      | .ok cNew' =>
        { containers := fun j => if j = k then cNew' else w1.containers j,
          session := some ⟨f cNew.state.val, selKey, f, k, lid⟩,
          nextListener := lid + 1 }
      | .error _ => w1

end DepsHook

/-!
## Basic lemmas about the container operations
-/

namespace StateSingleton

variable {α : Type}

/-- An `update` whose callback makes no observable edit leaves the
container untouched (`produce` returned the same reference) and performs
no notification. -/
theorem update_of_noedit (s : StateSingleton α) (cb : α → Option α)
    (h : cb s.state.val = none) : s.update cb = (s, []) := by
  simp [update, produce, h]

/-- An `update` whose callback edits the draft to `v` installs a fresh
snapshot carrying `v` and notifies every registered listener with it, in
insertion order. -/
theorem update_of_edit (s : StateSingleton α) (cb : α → Option α) (v : α)
    (h : cb s.state.val = some v) :
    s.update cb =
      ({ s with state := ⟨s.state.id + 1, v⟩ },
        s.listeners.map fun m => (m, (⟨s.state.id + 1, v⟩ : Snap α))) := by
  simp [update, produce, h]

/-- `update` never changes the listener registry. -/
theorem update_listeners (s : StateSingleton α) (cb : α → Option α) :
    ((s.update cb).1).listeners = s.listeners := by
  rcases h : cb s.state.val with _ | v
  · rw [update_of_noedit s cb h]
  · rw [update_of_edit s cb v h]

/-- Every notification performed by `update` goes to a registered
listener. -/
theorem update_trace_mem (s : StateSingleton α) (cb : α → Option α)
    (p : Nat × Snap α) (hp : p ∈ (s.update cb).2) : p.1 ∈ s.listeners := by
  rcases h : cb s.state.val with _ | v
  · rw [update_of_noedit s cb h] at hp
    simp at hp
  · rw [update_of_edit s cb v h] at hp
    rcases List.mem_map.mp hp with ⟨m, hm, hme⟩
    rw [← hme]
    exact hm

/-- A sequence of `update` calls whose callbacks all make no observable
edit of the (never-changing) current state is entirely inert. -/
theorem updateSeq_noop (s : StateSingleton α) :
    ∀ cbs : List (α → Option α), (∀ cb ∈ cbs, cb s.state.val = none) →
      s.updateSeq cbs = (s, [])
  | [], _ => rfl
  | cb :: rest, h => by
    have h1 := update_of_noedit s cb (h cb (by simp))
    have h2 := updateSeq_noop s rest (fun c hc => h c (by simp [hc]))
    simp [updateSeq, h1, h2]

/-- Every notification performed anywhere in a sequence of `update`
calls goes to a listener registered at the start of the sequence. -/
theorem updateSeq_trace_mem (s : StateSingleton α) :
    ∀ (cbs : List (α → Option α)) (p : Nat × Snap α),
      p ∈ (s.updateSeq cbs).2 → p.1 ∈ s.listeners
  | [], p, hp => by simp [updateSeq] at hp
  | cb :: rest, p, hp => by
    simp only [updateSeq, List.mem_append] at hp
    rcases hp with hp | hp
    · exact update_trace_mem s cb p hp
    · have := updateSeq_trace_mem (s.update cb).1 rest p hp
      rwa [update_listeners] at this

/-- `updateE` with an editing callback: the fresh snapshot is installed
and the faultable notification loop runs over the registry. -/
theorem updateE_of_edit (s : StateSingleton α) (cb : α → Option α) (v : α)
    (throws : Nat → Bool) (h : cb s.state.val = some v) :
    s.updateE cb throws =
      ({ s with state := ⟨s.state.id + 1, v⟩ },
        notifyLoop throws ⟨s.state.id + 1, v⟩ s.listeners) := by
  simp [updateE, produce, h]

/-- The notification loop invokes the non-throwing prefix in order, then
the throwing listener, and aborts: nothing after the throw runs and the
exception escapes. -/
theorem notifyLoop_split (throws : Nat → Bool) (st : Snap α) (t : Nat) :
    ∀ (pre post : List Nat), (∀ l ∈ pre, throws l = false) →
      throws t = true →
      notifyLoop throws st (pre ++ t :: post) =
        (pre.map (fun m => (m, st)) ++ [(t, st)], true)
  | [], post, _, ht => by simp [notifyLoop, ht]
  | l :: pre, post, hpre, ht => by
    have hl : throws l = false := hpre l (by simp)
    have hrec :=
      notifyLoop_split throws st t pre post (fun x hx => hpre x (by simp [hx])) ht
    simp [notifyLoop, hl, hrec]

end StateSingleton

/-!
## Claims about the state container
-/

open StateSingleton

/-- **C1 (amended)**: for the `StateSingleton` container of
`src/index.ts` (the same `update` appears in both other copies of that
file), a registered listener is notified by an `update` call if and only
if the newly produced snapshot is reference-distinct from the
immediately preceding one.  (The claim as frozen — quantified over
*every* state container of the repository — fails for the legacy `Store`
of the earliest source version, see `c1_store_counterexample`.) -/
theorem c1_notify_iff_reference_distinct {α : Type} (s : StateSingleton α)
    (cb : α → Option α) (l : Nat) (hl : l ∈ s.listeners) :
    (∃ snap, (l, snap) ∈ (s.update cb).2) ↔
      (s.update cb).1.state.id ≠ s.state.id := by
  rcases h : cb s.state.val with _ | v
  · rw [update_of_noedit s cb h]
    simp
  · rw [update_of_edit s cb v h]
    constructor
    · intro _
      exact Nat.succ_ne_self s.state.id
    · intro _
      exact ⟨⟨s.state.id + 1, v⟩, List.mem_map_of_mem _ hl⟩

/-- Witness for `c1_notify_iff_reference_distinct` at a concrete
container. -/
theorem c1_notify_iff_reference_distinct_witness :
    (∃ snap,
        ((7 : Nat), snap) ∈
          ((⟨⟨0, 5⟩, [7]⟩ : StateSingleton Nat).update (fun n => some (n + 1))).2) ↔
      ((⟨⟨0, 5⟩, [7]⟩ : StateSingleton Nat).update (fun n => some (n + 1))).1.state.id ≠
        (⟨⟨0, 5⟩, [7]⟩ : StateSingleton Nat).state.id :=
  c1_notify_iff_reference_distinct ⟨⟨0, 5⟩, [7]⟩ (fun n => some (n + 1)) 7 (by decide)

/-- **C1 (counterexample)**: the legacy `Store.update` has no
reference-distinctness check.  On a store holding snapshot `⟨0, 42⟩`
with one registered listener, an update that makes no observable edit
leaves the state reference-identical to the prior snapshot and still
invokes the listener — so "no listener is invoked when the new snapshot
is reference-identical to the prior one" is false for `Store`. -/
theorem c1_store_counterexample :
    ((⟨⟨0, 42⟩, [0]⟩ : Store Nat).update (fun _ => none)).1.state = ⟨0, 42⟩ ∧
      ((⟨⟨0, 42⟩, [0]⟩ : Store Nat).update (fun _ => none)).2 = [(0, ⟨0, 42⟩)] :=
  ⟨rfl, rfl⟩

/-- **C4**: an `update` whose callback makes an observable edit invokes
the registered listeners exactly in registration order, passing each one
the new snapshot, and any listener registered before the call is invoked
exactly once; the notification trace is produced by the `update` call
itself, i.e. synchronously within it. -/
theorem c4_update_notifies_in_order_once {α : Type} (s : StateSingleton α)
    (cb : α → Option α) (v : α) (l : Nat) (hWF : s.WF)
    (hedit : cb s.state.val = some v) (hl : l ∈ s.listeners) :
    (s.update cb).2 = s.listeners.map (fun m => (m, (s.update cb).1.state)) ∧
      ((s.update cb).2.map Prod.fst).count l = 1 ∧
      ∀ p ∈ (s.update cb).2, p.1 = l → p.2 = (s.update cb).1.state := by
  rw [update_of_edit s cb v hedit]
  dsimp only
  refine ⟨rfl, ?_, ?_⟩
  · rw [List.map_map]
    have hcomp :
        (Prod.fst ∘ fun m : Nat => (m, (⟨s.state.id + 1, v⟩ : Snap α))) = id := rfl
    rw [hcomp, List.map_id]
    exact List.count_eq_one_of_mem hWF hl
  · intro p hp _
    rcases List.mem_map.mp hp with ⟨m, _, hme⟩
    rw [← hme]

/-- Witness for `c4_update_notifies_in_order_once` at a concrete
container with two listeners. -/
theorem c4_update_notifies_in_order_once_witness :
    ((⟨⟨0, 5⟩, [3, 8]⟩ : StateSingleton Nat).update (fun n => some (n + 1))).2 =
        [3, 8].map
          (fun m =>
            (m, ((⟨⟨0, 5⟩, [3, 8]⟩ : StateSingleton Nat).update
              (fun n => some (n + 1))).1.state)) ∧
      ((((⟨⟨0, 5⟩, [3, 8]⟩ : StateSingleton Nat).update
          (fun n => some (n + 1))).2.map Prod.fst).count 3 = 1) ∧
      ∀ p ∈ ((⟨⟨0, 5⟩, [3, 8]⟩ : StateSingleton Nat).update (fun n => some (n + 1))).2,
        p.1 = 3 →
          p.2 = ((⟨⟨0, 5⟩, [3, 8]⟩ : StateSingleton Nat).update
            (fun n => some (n + 1))).1.state :=
  c4_update_notifies_in_order_once ⟨⟨0, 5⟩, [3, 8]⟩ (fun n => some (n + 1)) 6 3
    (by decide) rfl (by decide)

/-- **C5**: a finite sequence of `update` calls whose callbacks make no
observable edit leaves `getState()` reference-equal (here: literally
equal, same id) to the pre-sequence snapshot and invokes no listener at
any point. -/
theorem c5_noop_update_sequence_inert {α : Type} (s : StateSingleton α)
    (cbs : List (α → Option α)) (h : ∀ cb ∈ cbs, cb s.state.val = none) :
    (s.updateSeq cbs).1.getState = s.getState ∧ (s.updateSeq cbs).2 = [] := by
  rw [updateSeq_noop s cbs h]
  exact ⟨rfl, rfl⟩

/-- Witness for `c5_noop_update_sequence_inert`: three no-edit updates
on a concrete container. -/
theorem c5_noop_update_sequence_inert_witness :
    ((⟨⟨2, 9⟩, [4]⟩ : StateSingleton Nat).updateSeq
        [fun _ => none, fun _ => none, fun _ => none]).1.getState =
        (⟨⟨2, 9⟩, [4]⟩ : StateSingleton Nat).getState ∧
      ((⟨⟨2, 9⟩, [4]⟩ : StateSingleton Nat).updateSeq
        [fun _ => none, fun _ => none, fun _ => none]).2 = [] :=
  c5_noop_update_sequence_inert ⟨⟨2, 9⟩, [4]⟩ _
    (by
      intro cb hcb
      simp only [List.mem_cons, List.not_mem_nil, or_false] at hcb
      rcases hcb with h | h | h <;> subst h <;> rfl)

/-- **C6**: `listen(l)` raises the usage-violation error if and only if
`l` is currently registered (so a duplicate never silently no-ops), and
after `l` has been unsubscribed, registering the very same reference
again succeeds. -/
theorem c6_listen_duplicate_errors_iff {α : Type} (s : StateSingleton α)
    (l : Nat) (hWF : s.WF) :
    ((∃ e, s.listen l = .error e) ↔ l ∈ s.listeners) ∧
      ∃ s', (s.unsubscribe l).listen l = .ok s' := by
  constructor
  · constructor
    · rintro ⟨e, he⟩
      by_contra hmem
      simp [StateSingleton.listen, hmem] at he
    · intro hmem
      exact ⟨"This listener was already added to this StateSingleton.",
        by simp [StateSingleton.listen, hmem]⟩
  · have hnot : l ∉ s.listeners.erase l := hWF.not_mem_erase
    exact ⟨{ s with listeners := s.listeners.erase l ++ [l] },
      by simp [StateSingleton.listen, hnot, unsubscribe]⟩

/-- Witness for `c6_listen_duplicate_errors_iff` at a concrete
container on which listener `4` is registered. -/
theorem c6_listen_duplicate_errors_iff_witness :
    ((∃ e, (⟨⟨0, 1⟩, [4, 6]⟩ : StateSingleton Nat).listen 4 = .error e) ↔
        4 ∈ (⟨⟨0, 1⟩, [4, 6]⟩ : StateSingleton Nat).listeners) ∧
      ∃ s', ((⟨⟨0, 1⟩, [4, 6]⟩ : StateSingleton Nat).unsubscribe 4).listen 4 = .ok s' :=
  c6_listen_duplicate_errors_iff ⟨⟨0, 1⟩, [4, 6]⟩ 4 (by decide)

/-- **C7**: the unsubscribe closure removes its listener from the
registry; running it a second time is a no-op (so any `n ≥ 1` calls
equal one call); no subsequent `update`, anywhere in any sequence of
further mutations, invokes the removed listener; and every other
listener's registration is unaffected. -/
theorem c7_unsubscribe_removes_idempotently {α : Type} (s : StateSingleton α)
    (l m : Nat) (hWF : s.WF) (hm : m ≠ l) :
    (s.unsubscribe l).unsubscribe l = s.unsubscribe l ∧
      l ∉ (s.unsubscribe l).listeners ∧
      (∀ cbs, ∀ p ∈ ((s.unsubscribe l).updateSeq cbs).2, p.1 ≠ l) ∧
      (m ∈ (s.unsubscribe l).listeners ↔ m ∈ s.listeners) := by
  have hnot : l ∉ (s.unsubscribe l).listeners := by
    simpa [unsubscribe] using hWF.not_mem_erase
  refine ⟨?_, hnot, ?_, ?_⟩
  · simp [unsubscribe, List.erase_of_not_mem (by simpa [unsubscribe] using hnot)]
  · intro cbs p hp hfst
    exact hnot (by
      have := updateSeq_trace_mem (s.unsubscribe l) cbs p hp
      rwa [hfst] at this)
  · simpa [unsubscribe] using List.mem_erase_of_ne hm

/-- Witness for `c7_unsubscribe_removes_idempotently` at a concrete
container. -/
theorem c7_unsubscribe_removes_idempotently_witness :
    ((⟨⟨0, 1⟩, [4, 6]⟩ : StateSingleton Nat).unsubscribe 4).unsubscribe 4 =
        (⟨⟨0, 1⟩, [4, 6]⟩ : StateSingleton Nat).unsubscribe 4 ∧
      4 ∉ ((⟨⟨0, 1⟩, [4, 6]⟩ : StateSingleton Nat).unsubscribe 4).listeners ∧
      (∀ cbs, ∀ p ∈ (((⟨⟨0, 1⟩, [4, 6]⟩ : StateSingleton Nat).unsubscribe 4).updateSeq cbs).2,
          p.1 ≠ 4) ∧
      (6 ∈ ((⟨⟨0, 1⟩, [4, 6]⟩ : StateSingleton Nat).unsubscribe 4).listeners ↔
        6 ∈ (⟨⟨0, 1⟩, [4, 6]⟩ : StateSingleton Nat).listeners) :=
  c7_unsubscribe_removes_idempotently ⟨⟨0, 1⟩, [4, 6]⟩ 4 6 (by decide) (by decide)

/-- **C9**: when an editing `update` notifies and some listener throws,
the exception propagates out of `update`, the throwing listener is the
last one invoked, every earlier (non-throwing) listener was invoked
before it in registration order, and no listener after it in the
registration order is invoked. -/
theorem c9_listener_throw_aborts_wave {α : Type} (s : StateSingleton α)
    (cb : α → Option α) (v : α) (throws : Nat → Bool) (pre post : List Nat)
    (t : Nat) (hWF : s.WF) (hedit : cb s.state.val = some v)
    (hsplit : s.listeners = pre ++ t :: post)
    (hpre : ∀ l ∈ pre, throws l = false) (ht : throws t = true) :
    (s.updateE cb throws).2.2 = true ∧
      (s.updateE cb throws).2.1 =
        pre.map (fun m => (m, (s.updateE cb throws).1.state)) ++
          [(t, (s.updateE cb throws).1.state)] ∧
      ∀ l ∈ post, ∀ p ∈ (s.updateE cb throws).2.1, p.1 ≠ l := by
  rw [updateE_of_edit s cb v throws hedit, hsplit,
    notifyLoop_split throws _ t pre post hpre ht]
  have hnd : (pre ++ t :: post).Nodup := by
    have := hWF
    rwa [WF, hsplit] at this
  simp only [List.nodup_append, List.nodup_cons] at hnd
  refine ⟨rfl, rfl, ?_⟩
  intro l hl p hp hfst
  rcases List.mem_append.mp hp with hp' | hp'
  · rcases List.mem_map.mp hp' with ⟨m, hm, hme⟩
    have hml : m = l := by rw [← hme] at hfst; exact hfst
    exact hnd.2.2 hm (by rw [hml]; exact List.mem_cons_of_mem _ hl)
  · have hpt : p = (t, ⟨s.state.id + 1, v⟩) := by simpa using hp'
    have htl : t = l := by rw [hpt] at hfst; exact hfst
    exact hnd.2.1.1 (htl ▸ hl)

/-- Witness for `c9_listener_throw_aborts_wave`: listeners `[3, 4, 5]`,
listener `4` throws. -/
theorem c9_listener_throw_aborts_wave_witness :
    ((⟨⟨0, 1⟩, [3, 4, 5]⟩ : StateSingleton Nat).updateE (fun _ => some 9)
        (fun l => l == 4)).2.2 = true ∧
      ((⟨⟨0, 1⟩, [3, 4, 5]⟩ : StateSingleton Nat).updateE (fun _ => some 9)
          (fun l => l == 4)).2.1 =
        [3].map
            (fun m =>
              (m, ((⟨⟨0, 1⟩, [3, 4, 5]⟩ : StateSingleton Nat).updateE
                (fun _ => some 9) (fun l => l == 4)).1.state)) ++
          [(4, ((⟨⟨0, 1⟩, [3, 4, 5]⟩ : StateSingleton Nat).updateE
            (fun _ => some 9) (fun l => l == 4)).1.state)] ∧
      ∀ l ∈ [5], ∀ p ∈ ((⟨⟨0, 1⟩, [3, 4, 5]⟩ : StateSingleton Nat).updateE
          (fun _ => some 9) (fun l => l == 4)).2.1, p.1 ≠ l :=
  c9_listener_throw_aborts_wave ⟨⟨0, 1⟩, [3, 4, 5]⟩ (fun _ => some 9) 9
    (fun l => l == 4) [3] [5] 4 (by decide) rfl rfl
    (by intro l hl; simp at hl; simp [hl]) rfl

/-!
## Lemmas about the refs-based hook
-/

namespace RefsHook

variable {α β : Type}

/-- Finding the session's listener in a notification trace over a
registry that contains it. -/
theorem trace_find? (ns : Snap α) (l : Nat) :
    ∀ ls : List Nat, l ∈ ls →
      List.find? (fun p => p.1 == l) (ls.map fun m => (m, ns)) = some (l, ns)
  | m :: ls, hl => by
    rcases eq_or_ne m l with hml | hml
    · subst hml
      rw [List.map_cons, List.find?_cons_of_pos]
      simp
    · have hl' : l ∈ ls := by
        rcases List.mem_cons.mp hl with h | h
        · exact absurd h.symm hml
        · exact h
      rw [List.map_cons, List.find?_cons_of_neg]
      · exact trace_find? ns l ls hl'
      · simp [hml]

/-- A notification trace over a registry that does not contain the
session's listener never matches it. -/
theorem trace_find?_none (ns : Snap α) (l : Nat) (ls : List Nat)
    (hl : l ∉ ls) :
    List.find? (fun p => p.1 == l) (ls.map fun m => (m, ns)) = none := by
  rw [List.find?_eq_none]
  rintro ⟨m, sn⟩ hmem
  rcases List.mem_map.mp hmem with ⟨m', hm', hme⟩
  cases hme
  simp only [beq_iff_eq]
  intro hml
  exact hl (hml ▸ hm')

/-- A mutation on the container the session's listener is registered on,
whose updater makes an observable edit: the session's callback runs once
with the new snapshot; it re-selects through the current `selectorRef`
and compares through the current `equalityFnRef` against the rendered
value; a UI update (a new rendered value) is requested exactly when the
equality function reports a difference, and otherwise the rendered value
is kept unchanged. -/
theorem mutate_subscribed (w : World α β) (s : Session α β) (k : Nat)
    (cb : α → Option α) (v : α) (hs : w.session = some s)
    (hmem : s.listenerId ∈ (w.containers k).listeners)
    (hedit : cb (w.containers k).state.val = some v) :
    (mutate w k cb).2 = !(s.equalityRef (s.selectorRef v) s.value) ∧
      (mutate w k cb).1.session =
        some (if s.equalityRef (s.selectorRef v) s.value then s
              else { s with value := s.selectorRef v }) := by
  have hfind := trace_find? (⟨(w.containers k).state.id + 1, v⟩ : Snap α)
    s.listenerId (w.containers k).listeners hmem
  unfold mutate
  rw [StateSingleton.update_of_edit _ cb v hedit]
  dsimp only
  rw [hs]
  dsimp only
  rw [hfind]
  dsimp only
  by_cases he : s.equalityRef (s.selectorRef v) s.value
  · simp [he]
  · simp [he]

/-- A mutation on a container the session's listener is *not* registered
on leaves the session untouched, requests no UI update, and leaves that
container's registry as it was (and all other containers entirely as
they were). -/
theorem mutate_not_subscribed (w : World α β) (s : Session α β) (k : Nat)
    (cb : α → Option α) (hs : w.session = some s)
    (hnot : s.listenerId ∉ (w.containers k).listeners) :
    (mutate w k cb).1.session = some s ∧ (mutate w k cb).2 = false ∧
      ((mutate w k cb).1.containers k).listeners =
        (w.containers k).listeners ∧
      ∀ j, j ≠ k → (mutate w k cb).1.containers j = w.containers j := by
  unfold mutate
  rcases h : cb (w.containers k).state.val with _ | v
  · rw [StateSingleton.update_of_noedit _ cb h]
    dsimp only
    rw [hs]
    dsimp only
    exact ⟨rfl, rfl, by simp, fun j hj => by simp [hj]⟩
  · rw [StateSingleton.update_of_edit _ cb v h]
    dsimp only
    rw [hs]
    dsimp only
    rw [trace_find?_none _ _ _ hnot]
    dsimp only
    exact ⟨rfl, rfl, by simp, fun j hj => by simp [hj]⟩

/-- No mutation in a sequence of mutations on a container the session's
listener is not registered on ever touches the session. -/
theorem mutateSeq_not_subscribed (k : Nat) :
    ∀ (cbs : List (α → Option α)) (w : World α β) (s : Session α β),
      w.session = some s → s.listenerId ∉ (w.containers k).listeners →
      (mutateSeq w k cbs).session = some s
  | [], _, _, hs, _ => hs
  | cb :: rest, w, s, hs, hnot => by
    have h := mutate_not_subscribed w s k cb hs hnot
    exact mutateSeq_not_subscribed k rest (mutate w k cb).1 s h.1
      (by rw [h.2.2.1]; exact hnot)

/-- A re-render that keeps the container identity (only the selector
and/or the equality function changed): the effect does not re-run, so no
unsubscribe/subscribe happens — the registries and the listener-identity
supply are untouched — while the refs now hold the new selector and
equality function, which the very next notification will use. -/
theorem rerender_same_container (w : World α β) (s : Session α β) (k : Nat)
    (f : α → β) (e : β → β → Bool) (hs : w.session = some s)
    (hk : s.subKey = k) :
    (rerender w k f e).containers = w.containers ∧
      (rerender w k f e).nextListener = w.nextListener ∧
      (rerender w k f e).session =
        some { s with selectorRef := f, equalityRef := e } := by
  unfold rerender
  rw [hs]
  dsimp only
  rw [if_pos hk]
  exact ⟨rfl, rfl, rfl⟩

/-- A re-render that changes the container identity from `s.subKey` to
`b`: the cleanup of the old effect unsubscribes the old listener from
the old container, and the new effect registers a fresh listener on the
new container; the rendered value is kept, and the refs hold the new
selector and equality function. -/
theorem rerender_switch (w : World α β) (s : Session α β) (b : Nat)
    (f : α → β) (e : β → β → Bool) (hs : w.session = some s)
    (hb : s.subKey ≠ b) (hFresh : w.Fresh) :
    (rerender w b f e).session = some ⟨s.value, f, e, b, w.nextListener⟩ ∧
      ((rerender w b f e).containers b).listeners =
        (w.containers b).listeners ++ [w.nextListener] ∧
      ((rerender w b f e).containers s.subKey).listeners =
        (w.containers s.subKey).listeners.erase s.listenerId ∧
      (rerender w b f e).nextListener = w.nextListener + 1 := by
  have hbmem : w.nextListener ∉ (w.containers b).listeners := fun hmem =>
    absurd (hFresh.1 b _ hmem) (lt_irrefl _)
  unfold rerender
  rw [hs]
  dsimp only
  rw [if_neg hb]
  rw [if_neg (Ne.symm hb)]
  simp only [StateSingleton.listen]
  rw [if_neg hbmem]
  dsimp only
  refine ⟨rfl, ?_, ?_, rfl⟩
  · rw [if_pos rfl]
  · rw [if_neg hb, if_pos rfl]
    rfl

end RefsHook

/-!
## Claims about the view binding
-/

/-- **C2**: on a notification carrying an edited snapshot, the binding
session requests a UI update (its state updater returns a new rendered
value) if and only if the equality function currently held in
`equalityFnRef` reports the newly selected value as different from the
last-rendered selection; when it reports them equal, the rendered value
is kept unchanged and no re-render is requested. -/
theorem c2_ui_update_iff_equality_difference {α β : Type}
    (w : RefsHook.World α β) (s : RefsHook.Session α β) (k : Nat)
    (cb : α → Option α) (v : α) (hs : w.session = some s)
    (hmem : s.listenerId ∈ (w.containers k).listeners)
    (hedit : cb (w.containers k).state.val = some v) :
    (RefsHook.mutate w k cb).2 =
        !(s.equalityRef (s.selectorRef v) s.value) ∧
      (RefsHook.mutate w k cb).1.session =
        some (if s.equalityRef (s.selectorRef v) s.value then s
              else { s with value := s.selectorRef v }) :=
  RefsHook.mutate_subscribed w s k cb v hs hmem hedit

/-- Witness for `c2_ui_update_iff_equality_difference`: a session
rendered at selection `3`, a mutation editing the state to `4`;
reference equality reports a difference, so a UI update is requested and
the rendered value becomes `4`. -/
theorem c2_ui_update_iff_equality_difference_witness :
    (RefsHook.mutate
          (⟨fun _ => ⟨⟨0, 3⟩, [5]⟩,
            some ⟨3, (fun n => n), (fun a b => a == b), 0, 5⟩, 6⟩ :
            RefsHook.World Nat Nat) 0 (fun n => some (n + 1))).2 =
        !(((fun a b => a == b) : Nat → Nat → Bool) ((fun n : Nat => n) 4) 3) ∧
      (RefsHook.mutate
          (⟨fun _ => ⟨⟨0, 3⟩, [5]⟩,
            some ⟨3, (fun n => n), (fun a b => a == b), 0, 5⟩, 6⟩ :
            RefsHook.World Nat Nat) 0 (fun n => some (n + 1))).1.session =
        some
          (if ((fun a b => a == b) : Nat → Nat → Bool) ((fun n : Nat => n) 4) 3 then
            (⟨3, (fun n => n), (fun a b => a == b), 0, 5⟩ :
              RefsHook.Session Nat Nat)
          else
            { (⟨3, (fun n => n), (fun a b => a == b), 0, 5⟩ :
                RefsHook.Session Nat Nat) with
              value := (fun n : Nat => n) 4 }) :=
  c2_ui_update_iff_equality_difference
    ⟨fun _ => ⟨⟨0, 3⟩, [5]⟩, some ⟨3, (fun n => n), (fun a b => a == b), 0, 5⟩, 6⟩
    ⟨3, (fun n => n), (fun a b => a == b), 0, 5⟩ 0 (fun n => some (n + 1)) 4
    rfl (by decide) rfl

/-- **C8**: switching the binding from container `s.subKey` to a
different container `b` unsubscribes from the old container (the old
listener is gone from its registry, and the session's new listener is
not on it) and subscribes to `b`; afterwards, any sequence of mutations
on the old container leaves the session — and hence its rendered
selection — completely unchanged, while a mutation on `b` that edits the
state notifies the session normally, using the selector and equality
function supplied at the switch. -/
theorem c8_container_switch {α β : Type} (w : RefsHook.World α β)
    (s : RefsHook.Session α β) (b : Nat) (f : α → β) (e : β → β → Bool)
    (hs : w.session = some s) (hb : s.subKey ≠ b) (hFresh : w.Fresh)
    (hWFa : (w.containers s.subKey).WF) :
    (RefsHook.rerender w b f e).session =
        some ⟨s.value, f, e, b, w.nextListener⟩ ∧
      w.nextListener ∈ ((RefsHook.rerender w b f e).containers b).listeners ∧
      s.listenerId ∉
        ((RefsHook.rerender w b f e).containers s.subKey).listeners ∧
      w.nextListener ∉
        ((RefsHook.rerender w b f e).containers s.subKey).listeners ∧
      (∀ cbs,
        (RefsHook.mutateSeq (RefsHook.rerender w b f e) s.subKey cbs).session =
          some ⟨s.value, f, e, b, w.nextListener⟩) ∧
      ∀ (cb : α → Option α) (v : α),
        cb (((RefsHook.rerender w b f e).containers b).state.val) = some v →
          (RefsHook.mutate (RefsHook.rerender w b f e) b cb).2 =
              !(e (f v) s.value) ∧
            (RefsHook.mutate (RefsHook.rerender w b f e) b cb).1.session =
              some
                (if e (f v) s.value then
                  (⟨s.value, f, e, b, w.nextListener⟩ : RefsHook.Session α β)
                else ⟨f v, f, e, b, w.nextListener⟩) := by
  obtain ⟨hsess, hlb, hla, hnl⟩ := RefsHook.rerender_switch w s b f e hs hb hFresh
  have hmemb : w.nextListener ∈
      ((RefsHook.rerender w b f e).containers b).listeners := by
    rw [hlb]; simp
  have hnotmema : s.listenerId ∉
      ((RefsHook.rerender w b f e).containers s.subKey).listeners := by
    rw [hla]; exact hWFa.not_mem_erase
  have hfresh_nota : w.nextListener ∉
      ((RefsHook.rerender w b f e).containers s.subKey).listeners := by
    rw [hla]
    intro hmem
    exact absurd (hFresh.1 s.subKey _ (List.mem_of_mem_erase hmem))
      (lt_irrefl _)
  refine ⟨hsess, hmemb, hnotmema, hfresh_nota, ?_, ?_⟩
  · intro cbs
    exact RefsHook.mutateSeq_not_subscribed s.subKey cbs _ _ hsess hfresh_nota
  · intro cb v hedit
    exact RefsHook.mutate_subscribed _ _ b cb v hsess hmemb hedit

/-- A concrete binding session for exercising the container switch:
rendered selection `3`, identity selector, reference equality, bound to
container `0` through listener `5`. -/
def c8Session : RefsHook.Session Nat Nat :=
  ⟨3, fun n => n, fun a b => a == b, 0, 5⟩

/-- A concrete world for exercising the container switch: container `0`
holds snapshot `⟨0, 3⟩` with `c8Session`'s listener registered, container
`1` holds snapshot `⟨0, 10⟩` with no listeners. -/
def c8World : RefsHook.World Nat Nat :=
  ⟨fun k => if k = 0 then ⟨⟨0, 3⟩, [5]⟩ else ⟨⟨0, 10⟩, []⟩, some c8Session, 6⟩

/-- Witness for `c8_container_switch`: the session of `c8World` is
switched from container `0` to container `1`. -/
theorem c8_container_switch_witness :
    (RefsHook.rerender c8World 1 (fun n => n + 100) (fun a b => a == b)).session =
        some ⟨c8Session.value, (fun n => n + 100), (fun a b => a == b), 1,
          c8World.nextListener⟩ ∧
      c8World.nextListener ∈
        ((RefsHook.rerender c8World 1 (fun n => n + 100)
          (fun a b => a == b)).containers 1).listeners ∧
      c8Session.listenerId ∉
        ((RefsHook.rerender c8World 1 (fun n => n + 100)
          (fun a b => a == b)).containers c8Session.subKey).listeners ∧
      c8World.nextListener ∉
        ((RefsHook.rerender c8World 1 (fun n => n + 100)
          (fun a b => a == b)).containers c8Session.subKey).listeners ∧
      (∀ cbs,
        (RefsHook.mutateSeq
            (RefsHook.rerender c8World 1 (fun n => n + 100) (fun a b => a == b))
            c8Session.subKey cbs).session =
          some ⟨c8Session.value, (fun n => n + 100), (fun a b => a == b), 1,
            c8World.nextListener⟩) ∧
      ∀ (cb : Nat → Option Nat) (v : Nat),
        cb (((RefsHook.rerender c8World 1 (fun n => n + 100)
            (fun a b => a == b)).containers 1).state.val) = some v →
          (RefsHook.mutate
              (RefsHook.rerender c8World 1 (fun n => n + 100) (fun a b => a == b))
              1 cb).2 =
              !((fun a b => a == b) ((fun n => n + 100) v) c8Session.value) ∧
            (RefsHook.mutate
                (RefsHook.rerender c8World 1 (fun n => n + 100) (fun a b => a == b))
                1 cb).1.session =
              some
                (if (fun a b => a == b) ((fun n => n + 100) v) c8Session.value then
                  (⟨c8Session.value, (fun n => n + 100), (fun a b => a == b), 1,
                    c8World.nextListener⟩ : RefsHook.Session Nat Nat)
                else
                  ⟨(fun n => n + 100) v, (fun n => n + 100), (fun a b => a == b), 1,
                    c8World.nextListener⟩) :=
  c8_container_switch c8World c8Session 1 (fun n => n + 100) (fun a b => a == b)
    rfl (by decide)
    (by
      constructor
      · intro k l hl
        by_cases hk : k = 0
        · subst hk
          simp [c8World] at hl
          subst hl
          decide
        · simp [c8World, hk] at hl
      · intro s' hs'
        cases hs'
        decide)
    (by decide)

/-!
## The frozen claim C3, settled against `src/index.ts`

The hook of `src/index.ts` lists `selector` in its `useEffect`
dependencies, so a re-render that changes only the selector identity
tears the subscription down and re-creates it — contradicting both the
claim and the repository's own test (`test.ts` asserts that
`numListenCalls` stays at `1` across selector and equality-function
changes, and exercises a third `equalityFn` argument that this hook does
not even accept).  The refs-based hook satisfies the claim
(`RefsHook.rerender_same_container`).  The following concrete run
evaluates the `src/index.ts` hook at the failing input. -/

/-- A fresh world for the `src/index.ts` hook: one container holding
snapshot `⟨0, 10⟩`, nothing mounted, no listener identities used. -/
def depsWorld0 : DepsHook.World Nat Nat :=
  ⟨fun _ => ⟨⟨0, 10⟩, []⟩, none, 0⟩

/-- `depsWorld0` after mounting the binding on container `0` with the
identity selector (selector identity key `0`). -/
def depsWorld1 : DepsHook.World Nat Nat :=
  DepsHook.mount depsWorld0 0 0 (fun n => n)

/-- `depsWorld1` after a re-render with the *same* container but a
*different* selector (identity key `1`). -/
def depsWorld2 : DepsHook.World Nat Nat :=
  DepsHook.rerender depsWorld1 0 1 (fun n => n + n)

/-- **C3 (failing for `src/index.ts`)**: after mounting, container `0`
holds exactly the one listener `0` and one listener identity has been
consumed; after a re-render that changes only the selector, the original
subscription is gone — the registry now holds the *fresh* listener `1`
and a second `listen` call has consumed a second identity.  So a
selector-only change does tear down and re-create the subscription in
the `src/index.ts` hook, contrary to the claim (which the refs-based
hook and the repository's test expect to hold). -/
theorem c3_depsHook_resubscribes_on_selector_change :
    (depsWorld1.containers 0).listeners = [0] ∧
      depsWorld1.nextListener = 1 ∧
      (depsWorld2.containers 0).listeners = [1] ∧
      depsWorld2.nextListener = 2 ∧
      depsWorld2.session.map (fun s => s.listenerId) = some 1 :=
  ⟨rfl, rfl, rfl, rfl, rfl⟩

/-- **C10**: `update` installs the new snapshot before the notification
loop starts, so every snapshot passed to a listener during the wave is
exactly what `getState()` returns at that moment — a listener can never
observe the pre-mutation snapshot through `getState()`. -/
theorem c10_notified_snapshot_is_installed_state {α : Type}
    (s : StateSingleton α) (cb : α → Option α) (p : Nat × Snap α)
    (hp : p ∈ (s.update cb).2) : p.2 = (s.update cb).1.getState := by
  rcases h : cb s.state.val with _ | v
  · rw [update_of_noedit s cb h] at hp
    simp at hp
  · rw [update_of_edit s cb v h] at hp ⊢
    simp only [List.mem_map] at hp
    rcases hp with ⟨m, _, hme⟩
    rw [← hme]
    rfl

/-- Witness for `c10_notified_snapshot_is_installed_state` at a concrete
container. -/
theorem c10_notified_snapshot_is_installed_state_witness :
    ((3 : Nat), (⟨1, 8⟩ : Snap Nat)) ∈
        ((⟨⟨0, 5⟩, [3]⟩ : StateSingleton Nat).update (fun n => some (n + 3))).2 ∧
      ((3 : Nat), (⟨1, 8⟩ : Snap Nat)).2 =
        ((⟨⟨0, 5⟩, [3]⟩ : StateSingleton Nat).update (fun n => some (n + 3))).1.getState :=
  ⟨by decide,
    c10_notified_snapshot_is_installed_state ⟨⟨0, 5⟩, [3]⟩ (fun n => some (n + 3))
      (3, ⟨1, 8⟩) (by decide)⟩

end UseStateSingleton
